import Mathlib

/-!
Verification development for the xbrl-go library (github.com/aethiopicuschan/xbrl-go).

This file shallowly embeds the core of the library — the namespace resolver,
the streaming instance parser, the domain model (QName, Context, Unit, Fact,
Concept, Taxonomy, Document), the value-typing engine and the fact filter —
as executable Lean definitions, and proves properties of them.

Modelling conventions:
- Go nil pointers are modelled with `Option`.
- Go maps are modelled as association lists with insert-overwrite semantics
  (`insertA`) and first-match lookup (`lookupA`).  Go map keys are unique, so
  first-match lookup agrees with map lookup; where a proof needs key
  uniqueness it takes a `Nodup` hypothesis.
- The XML token stream is a `List Token` followed by a terminator: `none`
  models a clean end of input (io.EOF), `some msg` models a tokenizer error
  whose message is `msg`.  The Go sub-parsers treat io.EOF and tokenizer
  errors identically (both surface as a non-nil error from `dec.Token()`),
  which the model reflects by turning an exhausted list into an error string.
- Parsers are written with an explicit fuel argument for structural
  termination; fuel `ts.length + 1` is always sufficient because every
  recursive step consumes at least one token.
- Strings use the ASCII fragments of Go's strings.TrimSpace / ToLower /
  EqualFold, which is exact on all inputs appearing in the library's domain
  (XML names, attribute values from the claims).
-/

namespace Xbrl

/-! ### Small string utilities (Go strings package fragments) -/

def isSpaceChar (c : Char) : Bool :=
  c == ' ' || c == '\t' || c == '\n' || c == '\r'

/-- Models Go `strings.TrimSpace` (ASCII whitespace fragment). -/
def trimSpace (s : String) : String :=
  ⟨((s.data.dropWhile isSpaceChar).reverse.dropWhile isSpaceChar).reverse⟩

def lowerChar (c : Char) : Char :=
  if 'A' ≤ c ∧ c ≤ 'Z' then Char.ofNat (c.toNat + 32) else c

/-- Models Go `strings.ToLower` (ASCII fragment). -/
def toLowerAscii (s : String) : String :=
  ⟨s.data.map lowerChar⟩

/-- Models Go `strings.EqualFold` (ASCII fragment). -/
def eqFold (a b : String) : Bool :=
  toLowerAscii a == toLowerAscii b

/-- Models `prefixOf` from parse_instance.go: the part before the first
colon, or "" when there is no colon. -/
def prefixOf (s : String) : String :=
  let pre := s.data.takeWhile (fun c => c ≠ ':')
  if pre.length = s.data.length then "" else ⟨pre⟩

/-- Models `localOf` from parse_instance.go: the part after the first colon,
or the whole string when there is no colon. -/
def localOf (s : String) : String :=
  let pre := s.data.takeWhile (fun c => c ≠ ':')
  if pre.length = s.data.length then s else ⟨s.data.drop (pre.length + 1)⟩

/-! ### Association lists, modelling Go maps -/

def lookupA {κ α : Type} [DecidableEq κ] : List (κ × α) → κ → Option α
  | [], _ => none
  | (k, v) :: rest, q => if k = q then some v else lookupA rest q

/-- Go map assignment `m[q] = c`: replace in place or append. -/
def insertA {κ α : Type} [DecidableEq κ] : List (κ × α) → κ → α → List (κ × α)
  | [], q, c => [(q, c)]
  | (k, v) :: rest, q, c => if k = q then (q, c) :: rest else (k, v) :: insertA rest q c

theorem lookupA_insertA_self {κ α : Type} [DecidableEq κ]
    (m : List (κ × α)) (k : κ) (v : α) : lookupA (insertA m k v) k = some v := by
  induction m with
  | nil => simp [insertA, lookupA]
  | cons b rest ih =>
    by_cases h : b.1 = k
    · simp [insertA, h, lookupA]
    · simp only [insertA]
      cases b with
      | mk k' v' =>
        simp only at h
        simp [h, lookupA, ih]

theorem lookupA_insertA_ne {κ α : Type} [DecidableEq κ]
    (m : List (κ × α)) (k k' : κ) (v : α) (h : k' ≠ k) :
    lookupA (insertA m k v) k' = lookupA m k' := by
  induction m with
  | nil => simp [insertA, lookupA, Ne.symm h]
  | cons b rest ih =>
    cases b with
    | mk k0 v0 =>
      by_cases h0 : k0 = k
      · subst h0
        simp [insertA, lookupA, Ne.symm h]
      · by_cases h1 : k0 = k'
        · subst h1
          simp [insertA, h0, lookupA]
        · simp [insertA, h0, lookupA, h1, ih]

theorem lookupA_isSome_iff {κ α : Type} [DecidableEq κ]
    (m : List (κ × α)) (k : κ) :
    (lookupA m k).isSome = true ↔ ∃ v, (k, v) ∈ m := by
  induction m with
  | nil => simp [lookupA]
  | cons b rest ih =>
    cases b with
    | mk k0 v0 =>
      by_cases h : k0 = k
      · subst h
        simp [lookupA]
      · simp only [lookupA, if_neg h, ih, List.mem_cons]
        constructor
        · rintro ⟨v, hv⟩
          exact ⟨v, Or.inr hv⟩
        · rintro ⟨v, hv | hv⟩
          · cases hv
            exact absurd rfl h
          · exact ⟨v, hv⟩

theorem lookupA_append_left {κ α : Type} [DecidableEq κ]
    (l₁ l₂ : List (κ × α)) (k : κ) (h : k ∈ l₁.map Prod.fst) :
    lookupA (l₁ ++ l₂) k = lookupA l₁ k := by
  induction l₁ with
  | nil => simp at h
  | cons b rest ih =>
    cases b with
    | mk k0 v0 =>
      by_cases h0 : k0 = k
      · simp [lookupA, h0]
      · simp only [List.map_cons, List.mem_cons] at h
        rcases h with h | h
        · exact absurd h.symm h0
        · simp [lookupA, h0, ih h]

/-! ### XML tokens and the namespace resolver (parse_instance.go) -/

structure Attr where
  space : String
  loc : String
  value : String
deriving DecidableEq

structure StartElement where
  space : String
  loc : String
  attr : List Attr
deriving DecidableEq

inductive Token where
  | start (se : StartElement)
  | endE (space : String) (loc : String)
  | chardata (s : String)
deriving DecidableEq

/-- The xmlns declarations carried by an element's attributes, in attribute
order, mirroring the loop in `namespaceStack.Push`. -/
def xmlnsDecls (attrs : List Attr) : List (String × String) :=
  attrs.filterMap fun a =>
    if a.space = "xmlns" then some (a.loc, a.value)
    else if a.loc = "xmlns" ∧ a.space = "" then some ("", a.value)
    else none

/-- Go copies the parent frame into a fresh map and then assigns each
declaration in order; with first-match lookup this is consing each
declaration onto the parent frame (a later assignment of the same prefix
shadows an earlier one as well as the parent's binding). -/
def pushFrame (top : List (String × String)) (decls : List (String × String)) :
    List (String × String) :=
  decls.foldl (fun m b => b :: m) top

structure namespaceStack where
  stack : List (List (String × String))
deriving DecidableEq

def newNamespaceStack : namespaceStack := ⟨[[]]⟩

def namespaceStack.headFrame (ns : namespaceStack) : List (String × String) :=
  match ns.stack with
  | [] => []
  | top :: _ => top

/-- Models `namespaceStack.Push`.  The Go stack appends at the slice's end;
the model keeps the top frame at the list head. -/
def namespaceStack.Push (ns : namespaceStack) (se : StartElement) : namespaceStack :=
  ⟨pushFrame ns.headFrame (xmlnsDecls se.attr) :: ns.stack⟩

/-- Models `namespaceStack.Pop` (the Go method ignores its EndElement
argument; it pops only when more than one frame is present). -/
def namespaceStack.Pop (ns : namespaceStack) : namespaceStack :=
  if 1 < ns.stack.length then ⟨ns.stack.tail⟩ else ns

/-- Models `namespaceStack.URIForPrefix`: looks only at the top frame; an
unbound prefix yields the Go map zero value "". -/
def namespaceStack.uriOfPfx (ns : namespaceStack) (p : String) : String :=
  match ns.stack with
  | [] => ""
  | top :: _ => (lookupA top p).getD ""

/-- Models `namespaceStack.PrefixForURI`: the first prefix bound to the URI
in the top frame.  Go iterates the map in unspecified order; the model
deterministically takes the first binding in frame order. -/
def namespaceStack.pfxOfURI (ns : namespaceStack) (uri : String) : String :=
  match ns.stack with
  | [] => ""
  | top :: _ =>
    if uri = "" then ""
    else ((top.find? fun b => b.2 == uri).map Prod.fst).getD ""

theorem pushFrame_eq (decls top : List (String × String)) :
    pushFrame top decls = decls.reverse ++ top := by
  induction decls generalizing top with
  | nil => rfl
  | cons b l ih =>
    show pushFrame (b :: top) l = _
    rw [ih]
    simp

/-! ### Domain model (document.go) -/

structure QName where
  pfx : String
  loc : String
  uri : String
deriving DecidableEq

structure SchemaRef where
  href : String
deriving DecidableEq

structure ContextIdentifier where
  scheme : String
  value : String
deriving DecidableEq

structure Entity where
  identifier : ContextIdentifier
deriving DecidableEq

structure Period where
  instant : Option String
  startDate : Option String
  endDate : Option String
  forever : Bool
deriving DecidableEq

structure Dimension where
  dimension : QName
  explicit : Bool
  member : QName
  typedValue : String
deriving DecidableEq

structure Context where
  id : String
  entity : Entity
  period : Period
  dimensions : List Dimension
deriving DecidableEq

structure Unit where
  id : String
  measures : List QName
  divide : Bool
  numerator : List QName
  denominator : List QName
deriving DecidableEq

inductive FactKind where
  | unknown
  | item
deriving DecidableEq

structure Fact where
  kind : FactKind
  name : QName
  value : String
  contextRef : String
  unitRef : String
  decimals : String
  precision : String
  id : String
  lang : String
  isNil : Bool
deriving DecidableEq

structure Concept where
  qname : QName
  id : String
  substitutionGroup : QName
  typeName : QName
  abstract : Bool
  nillable : Bool
  periodType : String
  balance : String
deriving DecidableEq

/-- The concept registry is a Go `map[QName]*Concept`: keys are entire QName
values, so map equality compares prefix, local name and URI alike. -/
structure Taxonomy where
  concepts : List (QName × Concept)
deriving DecidableEq

structure Document where
  schemaRefs : List SchemaRef
  contexts : List (String × Context)
  units : List (String × Unit)
  facts : List Fact
  taxonomy : Option Taxonomy
deriving DecidableEq

def emptyDocument : Document :=
  { schemaRefs := [], contexts := [], units := [], facts := [], taxonomy := none }

def emptyPeriod : Period :=
  { instant := none, startDate := none, endDate := none, forever := false }

def emptyEntity : Entity :=
  { identifier := { scheme := "", value := "" } }

def emptyQName : QName := { pfx := "", loc := "", uri := "" }

/-- Models `(*Taxonomy).Concept`: a Go map lookup keyed by the full QName
value (nil receiver yields not-found). -/
def Taxonomy.Concept (t : Option Taxonomy) (q : QName) : Option Concept :=
  match t with
  | none => none
  | some t => lookupA t.concepts q

/-- Models `(*Document).ConceptOf`. -/
def Document.ConceptOf (d : Option Document) (f : Option Fact) : Option Concept :=
  match d, f with
  | some d, some f =>
    match d.taxonomy with
    | none => none
    | some t => Taxonomy.Concept (some t) f.name
  | _, _ => none

/-- Folding Go's `for q, c := range other.concepts { t.concepts[q] = c }`. -/
def mergeConcepts (base entries : List (QName × Concept)) : List (QName × Concept) :=
  entries.foldl (fun m qc => insertA m qc.1 qc.2) base

/-- Models `(*Taxonomy).Merge` (taxonomy.go).  A nil receiver or nil source
is a no-op; Go's lazy initialization of a nil `concepts` map collapses into
the empty association list. -/
def Taxonomy.Merge (t other : Option Taxonomy) : Option Taxonomy :=
  match t, other with
  | none, _ => none
  | some t, none => some t
  | some t, some o => some ⟨mergeConcepts t.concepts o.concepts⟩

/-- Models `parseBool` (taxonomy.go): only case-insensitive "true" and "1"
are true. -/
def parseBool (s : String) : Bool :=
  if s = "" then false
  else if toLowerAscii s = "true" ∨ toLowerAscii s = "1" then true
  else false

/-! ### Value typing engine (value.go) -/

def nsXBRLI : String := "http://www.xbrl.org/2003/instance"
def nsXSD : String := "http://www.w3.org/2001/XMLSchema"

inductive ConceptValueKind where
  | unknown
  | string
  | numeric
  | monetary
  | boolean
  | date
  | dateTime
deriving DecidableEq

/-- Models `(*Concept).ValueKind` (value.go). -/
def Concept.ValueKind (c : Option Concept) : ConceptValueKind :=
  match c with
  | none => .unknown
  | some c =>
    if c.typeName.uri = nsXBRLI then
      match c.typeName.loc with
      | "monetaryItemType" => .monetary
      | "sharesItemType" | "perShareItemType"
      | "decimalItemType" | "integerItemType"
      | "nonNegativeIntegerItemType" | "nonPositiveIntegerItemType"
      | "positiveIntegerItemType" | "negativeIntegerItemType"
      | "pureItemType" | "fractionItemType" => .numeric
      | "booleanItemType" => .boolean
      | "dateItemType" => .date
      | "dateTimeItemType" => .dateTime
      | "stringItemType" => .string
      | _ => .string
    else if c.typeName.uri = nsXSD then
      match c.typeName.loc with
      | "decimal" | "integer" | "nonNegativeInteger" | "nonPositiveInteger"
      | "positiveInteger" | "negativeInteger" | "int" | "long" | "short" | "byte"
      | "unsignedInt" | "unsignedLong" | "unsignedShort" | "unsignedByte"
      | "float" | "double" => .numeric
      | "boolean" => .boolean
      | "date" => .date
      | "dateTime" => .dateTime
      | "string" | "normalizedString" => .string
      | _ => .string
    else .string

/-- The four exported sentinel errors declared with errors.New in value.go. -/
inductive SentinelErr where
  | noTaxonomy
  | noConcept
  | unsupportedType
  | invalidValue
deriving DecidableEq

/-- The error values the typed accessors can return.
`adhoc msg` models a fresh `fmt.Errorf` with no wrapped sentinel (the
document-nil and fact-nil failures); `sentinel s` models returning an
exported sentinel directly; `wrapped s detail` models
`fmt.Errorf("%w: ...", s, ...)`, which `errors.Is` still matches. -/
inductive AccessorErr where
  | adhoc (msg : String)
  | sentinel (s : SentinelErr)
  | wrapped (s : SentinelErr) (detail : String)
deriving DecidableEq

/-- Whether `errors.Is(e, s)` would hold for some exported sentinel `s`:
true exactly for errors that are, or wrap, one of the four sentinels. -/
def errSentinelMatchable : AccessorErr → Bool
  | .adhoc _ => false
  | .sentinel _ => true
  | .wrapped _ _ => true

/-- The fixed failure conditions the accessors produce: the four sentinel
conditions plus the two fixed ad-hoc messages. -/
def errRecognizable : AccessorErr → Bool
  | .adhoc m => m == "xbrl: document is nil" || m == "xbrl: fact is nil"
  | .sentinel _ => true
  | .wrapped _ _ => true

def isDigit (c : Char) : Bool := '0' ≤ c && c ≤ '9'

def digitsToNat (cs : List Char) : Nat :=
  cs.foldl (fun n c => n * 10 + (c.toNat - '0'.toNat)) 0

/-- Models `strconv.ParseInt(v, 10, 64)`: optional sign, nonempty decimal
digits, 64-bit signed range check. -/
def parseInt10 (s : String) : Option Int :=
  let cs := s.data
  let (neg, ds) :=
    match cs with
    | '+' :: rest => (false, rest)
    | '-' :: rest => (true, rest)
    | _ => (false, cs)
  if ds = [] then none
  else if ds.all isDigit then
    let n : Int := Int.ofNat (digitsToNat ds)
    let v := if neg then -n else n
    if -(2 ^ 63) ≤ v ∧ v ≤ 2 ^ 63 - 1 then some v else none
  else none

/-- Models the decimal/exponential fragment of `strconv.ParseFloat(v, 64)`,
with the value taken exactly as a rational (the rounding of the mathematical
value to the nearest binary64 float, and the special Inf/NaN and hexadecimal
forms, are outside the claims' scope). -/
def parseFloatQ (s : String) : Option ℚ :=
  let cs := s.data
  let (neg, cs) :=
    match cs with
    | '+' :: rest => (false, rest)
    | '-' :: rest => (true, rest)
    | _ => (false, cs)
  let intPart := cs.takeWhile isDigit
  let rest := cs.drop intPart.length
  let (fracPart, rest) :=
    match rest with
    | '.' :: r => (r.takeWhile isDigit, r.drop (r.takeWhile isDigit).length)
    | _ => ([], rest)
  if intPart = [] ∧ fracPart = [] then none
  else
    let mantissa : ℚ :=
      (digitsToNat intPart : ℚ) + (digitsToNat fracPart : ℚ) / ((10 : ℚ) ^ fracPart.length)
    match rest with
    | [] => some (if neg then -mantissa else mantissa)
    | e :: r =>
      if e = 'e' ∨ e = 'E' then
        let (eneg, ds) :=
          match r with
          | '+' :: r2 => (false, r2)
          | '-' :: r2 => (true, r2)
          | _ => (false, r)
        if ds ≠ [] ∧ ds.all isDigit then
          let m2 : ℚ :=
            if eneg then mantissa / ((10 : ℚ) ^ digitsToNat ds)
            else mantissa * ((10 : ℚ) ^ digitsToNat ds)
          some (if neg then -m2 else m2)
        else none
      else none

def containsAnyDotEE (s : String) : Bool :=
  s.data.any fun c => c == '.' || c == 'e' || c == 'E'

/-- Result of the Go `time.Time` producing accessor, reduced to the parsed
calendar fields, the explicit zone offset (for the RFC3339 form) and the
location the value is interpreted/rendered in. -/
structure GoTime where
  year : Nat
  month : Nat
  day : Nat
  hour : Nat
  minute : Nat
  sec : Nat
  offsetMinutes : Option Int
  loc : String
deriving DecidableEq

def twoDigits : List Char → Option Nat
  | [a, b] => if isDigit a ∧ isDigit b then some (digitsToNat [a, b]) else none
  | _ => none

/-- Models `time.ParseInLocation("2006-01-02", v, loc)` at the granularity
the claims need: strict YYYY-MM-DD shape with basic field ranges (the exact
day-in-month validation of Go's time package is abstracted; no claim
depends on that boundary). -/
def parseDate (s : String) : Option (Nat × Nat × Nat) :=
  match s.data with
  | [y1, y2, y3, y4, c5, m1, m2, c8, d1, d2] =>
    if c5 = '-' ∧ c8 = '-' ∧ [y1, y2, y3, y4].all isDigit then
      match twoDigits [m1, m2], twoDigits [d1, d2] with
      | some mo, some dy =>
        if 1 ≤ mo ∧ mo ≤ 12 ∧ 1 ≤ dy ∧ dy ≤ 31 then
          some (digitsToNat [y1, y2, y3, y4], mo, dy)
        else none
      | _, _ => none
    else none
  | _ => none

def parseClock : List Char → Option (Nat × Nat × Nat)
  | [h1, h2, c3, mi1, mi2, c6, s1, s2] =>
    if c3 = ':' ∧ c6 = ':' then
      match twoDigits [h1, h2], twoDigits [mi1, mi2], twoDigits [s1, s2] with
      | some h, some mi, some s =>
        if h ≤ 23 ∧ mi ≤ 59 ∧ s ≤ 59 then some (h, mi, s) else none
      | _, _, _ => none
    else none
  | _ => none

/-- Models `time.Parse(time.RFC3339, v)` at the granularity the claims need:
date 'T' clock followed by 'Z' or a ±hh:mm offset (fractional seconds
abstracted away). -/
def parseRFC3339 (s : String) : Option ((Nat × Nat × Nat) × (Nat × Nat × Nat) × Int) :=
  let cs := s.data
  if cs.length < 11 then none
  else
    match parseDate ⟨cs.take 10⟩, cs.drop 10 with
    | some d, t :: rest =>
      if t = 'T' then
        match parseClock (rest.take 8), rest.drop 8 with
        | some c, [z] => if z = 'Z' then some (d, c, 0) else none
        | some c, [sg, o1, o2, co, o3, o4] =>
          if co = ':' ∧ (sg = '+' ∨ sg = '-') then
            match twoDigits [o1, o2], twoDigits [o3, o4] with
            | some oh, some om =>
              if oh ≤ 23 ∧ om ≤ 59 then
                some (d, c, if sg = '-' then -(Int.ofNat (oh * 60 + om)) else Int.ofNat (oh * 60 + om))
              else none
            | _, _ => none
          else none
        | _, _ => none
      else none
    | _, _ => none

/-- Models `time.ParseInLocation("2006-01-02T15:04:05", v, loc)`. -/
def parseLocalDT (s : String) : Option ((Nat × Nat × Nat) × (Nat × Nat × Nat)) :=
  let cs := s.data
  if cs.length = 19 then
    match parseDate ⟨cs.take 10⟩, cs.drop 10 with
    | some d, t :: rest =>
      if t = 'T' then
        match parseClock rest with
        | some c => some (d, c)
        | none => none
      else none
    | _, _ => none
  else none

/-- Models `(*Document).AsInt64` (value.go). -/
def Document.AsInt64 (d : Option Document) (f : Option Fact) : Except AccessorErr Int :=
  match d with
  | none => .error (.adhoc "xbrl: document is nil")
  | some d =>
    match d.taxonomy with
    | none => .error (.sentinel .noTaxonomy)
    | some _ =>
      match f with
      | none => .error (.adhoc "xbrl: fact is nil")
      | some f =>
        if f.isNil then .error (.sentinel .invalidValue)
        else
          match Document.ConceptOf (some d) (some f) with
          | none => .error (.sentinel .noConcept)
          | some c =>
            match Concept.ValueKind (some c) with
            | .numeric | .monetary =>
              if containsAnyDotEE (trimSpace f.value) then .error (.sentinel .invalidValue)
              else
                match parseInt10 (trimSpace f.value) with
                | none => .error (.wrapped .invalidValue (trimSpace f.value))
                | some n => .ok n
            | _ => .error (.sentinel .unsupportedType)

/-- Models `(*Document).AsFloat64` (value.go), with the parsed value kept as
an exact rational. -/
def Document.AsFloat64 (d : Option Document) (f : Option Fact) : Except AccessorErr ℚ :=
  match d with
  | none => .error (.adhoc "xbrl: document is nil")
  | some d =>
    match d.taxonomy with
    | none => .error (.sentinel .noTaxonomy)
    | some _ =>
      match f with
      | none => .error (.adhoc "xbrl: fact is nil")
      | some f =>
        if f.isNil then .error (.sentinel .invalidValue)
        else
          match Document.ConceptOf (some d) (some f) with
          | none => .error (.sentinel .noConcept)
          | some c =>
            match Concept.ValueKind (some c) with
            | .numeric | .monetary =>
              match parseFloatQ (trimSpace f.value) with
              | none => .error (.wrapped .invalidValue (trimSpace f.value))
              | some q => .ok q
            | _ => .error (.sentinel .unsupportedType)

/-- Models `(*Document).AsBool` (value.go). -/
def Document.AsBool (d : Option Document) (f : Option Fact) : Except AccessorErr Bool :=
  match d with
  | none => .error (.adhoc "xbrl: document is nil")
  | some d =>
    match d.taxonomy with
    | none => .error (.sentinel .noTaxonomy)
    | some _ =>
      match f with
      | none => .error (.adhoc "xbrl: fact is nil")
      | some f =>
        if f.isNil then .error (.sentinel .invalidValue)
        else
          match Document.ConceptOf (some d) (some f) with
          | none => .error (.sentinel .noConcept)
          | some c =>
            if Concept.ValueKind (some c) ≠ .boolean then .error (.sentinel .unsupportedType)
            else
              match toLowerAscii (trimSpace f.value) with
              | "true" | "1" => .ok true
              | "false" | "0" => .ok false
              | _ => .error (.sentinel .invalidValue)

/-- Models `(*Document).AsTime` (value.go); `loc` is the caller-supplied
location name, `none` modelling a nil `*time.Location` (Go substitutes
UTC). -/
def Document.AsTime (d : Option Document) (f : Option Fact) (loc : Option String) :
    Except AccessorErr GoTime :=
  match d with
  | none => .error (.adhoc "xbrl: document is nil")
  | some d =>
    match d.taxonomy with
    | none => .error (.sentinel .noTaxonomy)
    | some _ =>
      match f with
      | none => .error (.adhoc "xbrl: fact is nil")
      | some f =>
        if f.isNil then .error (.sentinel .invalidValue)
        else
          match Document.ConceptOf (some d) (some f) with
          | none => .error (.sentinel .noConcept)
          | some c =>
            match Concept.ValueKind (some c) with
            | .date =>
              match parseDate (trimSpace f.value) with
              | none => .error (.wrapped .invalidValue (trimSpace f.value))
              | some (y, mo, dy) =>
                .ok { year := y, month := mo, day := dy, hour := 0, minute := 0, sec := 0,
                      offsetMinutes := none, loc := (loc.getD "UTC") }
            | .dateTime =>
              match parseRFC3339 (trimSpace f.value) with
              | some ((y, mo, dy), (h, mi, s), off) =>
                .ok { year := y, month := mo, day := dy, hour := h, minute := mi, sec := s,
                      offsetMinutes := some off, loc := (loc.getD "UTC") }
              | none =>
                match parseLocalDT (trimSpace f.value) with
                | some ((y, mo, dy), (h, mi, s)) =>
                  .ok { year := y, month := mo, day := dy, hour := h, minute := mi, sec := s,
                        offsetMinutes := none, loc := (loc.getD "UTC") }
                | none => .error (.sentinel .invalidValue)
            | _ => .error (.sentinel .unsupportedType)

/-! ### Fact filter (filter file) -/

structure dimensionFilter where
  dimURI : String
  dimLocal : String
  memURI : String
  memLocal : String
deriving DecidableEq

structure FactFilter where
  conceptURI : String
  conceptLocal : String
  contextID : String
  unitID : String
  nilFilter : Option Bool
  dims : List dimensionFilter
deriving DecidableEq

def NewFactFilter : FactFilter :=
  { conceptURI := "", conceptLocal := "", contextID := "", unitID := "",
    nilFilter := none, dims := [] }

/-- Models the builder `(*FactFilter).Dimension`: stores URI and local name
of both QNames, discarding the prefixes; nil receivers stay nil. -/
def FactFilter.Dimension (f : Option FactFilter) (dim member : QName) : Option FactFilter :=
  f.map fun f =>
    { f with dims := f.dims ++ [{ dimURI := dim.uri, dimLocal := dim.loc,
                                  memURI := member.uri, memLocal := member.loc }] }

/-- One explicit context dimension satisfying one required pair, per the
inner loop of `FilterFacts`. -/
def dimSatisfied (ctxDims : List Dimension) (df : dimensionFilter) : Bool :=
  ctxDims.any fun cd =>
    cd.explicit && cd.dimension.uri == df.dimURI && cd.dimension.loc == df.dimLocal
      && cd.member.uri == df.memURI && cd.member.loc == df.memLocal

/-- The per-fact predicate of `FilterFacts`, written as the conjunction of
the loop's `continue` checks (the Go guard on the concept checks collapses
to the same semantics). -/
def factPasses (d : Document) (f : FactFilter) (fact : Fact) : Bool :=
  (f.conceptLocal == "" || fact.name.loc == f.conceptLocal)
    && (f.conceptURI == "" || fact.name.uri == f.conceptURI)
    && (f.contextID == "" || fact.contextRef == f.contextID)
    && (f.unitID == "" || fact.unitRef == f.unitID)
    && (match f.nilFilter with
        | none => true
        | some b => fact.isNil == b)
    && (if f.dims.isEmpty then true
        else
          match lookupA d.contexts fact.contextRef with
          | none => false
          | some ctx => f.dims.all (dimSatisfied ctx.dimensions))

/-- Models `(*Document).FilterFacts`.  A nil document or nil filter yields
nil; the Go function's final copy of the result slice is the identity on
the returned value.  (Nil `*Fact` entries, which the loop skips, cannot be
produced by this library's parser and are not represented.) -/
def Document.FilterFacts (d : Option Document) (f : Option FactFilter) : List Fact :=
  match d, f with
  | some d, some f => d.facts.filter (factPasses d f)
  | _, _ => []

/-! ### The streaming instance parser (parse_instance.go)

Each Go loop over `dec.Token()` becomes a fuel-indexed recursion over the
remaining token list.  `term` describes how the stream ends: `none` is a
clean EOF, `some msg` a tokenizer error.  An exhausted token list presented
to a sub-parser produces the error text `eofText term`, matching how any
non-nil `dec.Token()` error (io.EOF included) reaches Go's sub-parsers. -/

def eofText : Option String → String
  | none => "EOF"
  | some m => m

def nextTok (term : Option String) : List Token → Except String (Token × List Token)
  | t :: ts => .ok (t, ts)
  | [] => .error (eofText term)

/-- Artifact of the fuel encoding; unreachable whenever fuel exceeds the
token count, since every recursive step consumes at least one token. -/
def fuelErr : String := "model: fuel exhausted"

/-- Models `hasAttr`: attribute matched by local name only. -/
def hasAttr (attrs : List Attr) (loc : String) : Bool :=
  attrs.any fun a => a.loc == loc

/-- Models `isXbrlRoot` (case-insensitive local name "xbrl"). -/
def isXbrlRoot (se : StartElement) : Bool :=
  eqFold se.loc "xbrl"

def isSchemaRef (se : StartElement) : Bool :=
  se.loc == "schemaRef"

/-- First attribute with the given local name (loops with `break`). -/
def firstAttr (attrs : List Attr) (loc : String) : String :=
  match attrs.find? (fun a => a.loc == loc) with
  | none => ""
  | some a => a.value

/-- Last attribute with the given local name (loops without `break`). -/
def lastAttr (attrs : List Attr) (loc : String) : String :=
  attrs.foldl (fun acc a => if a.loc = loc then a.value else acc) ""

/-- Models `parseSchemaRef`. -/
def parseSchemaRef (se : StartElement) : SchemaRef :=
  { href := firstAttr se.attr "href" }

/-- Models `(*xml.Decoder).Skip`: consume the subtree up to and including
the end element matching the already-consumed start; any token error is
returned untouched. -/
def skipToks (term : Option String) : Nat → List Token → Nat → Except String (List Token)
  | 0, _, _ => .error fuelErr
  | _ + 1, [], _ => .error (eofText term)
  | fuel + 1, Token.start _ :: ts, depth => skipToks term fuel ts (depth + 1)
  | _ + 1, Token.endE _ _ :: ts, 0 => .ok ts
  | fuel + 1, Token.endE _ _ :: ts, depth + 1 => skipToks term fuel ts depth
  | fuel + 1, Token.chardata _ :: ts, depth => skipToks term fuel ts depth

/-- Models `(*xml.Decoder).DecodeElement(&v, &start)` for a string target:
accumulate the element's character data, skipping nested elements, up to
and including the matching end element. -/
def decodeText (term : Option String) : Nat → List Token → String → Except String (String × List Token)
  | 0, _, _ => .error fuelErr
  | _ + 1, [], _ => .error (eofText term)
  | fuel + 1, Token.chardata s :: ts, acc => decodeText term fuel ts (acc ++ s)
  | fuel + 1, Token.start _ :: ts, acc =>
    match skipToks term fuel ts 0 with
    | .error e => .error e
    | .ok ts' => decodeText term fuel ts' acc
  | _ + 1, Token.endE _ _ :: ts, acc => .ok (acc, ts)

/-- Models the `,innerxml` decode in `parseTypedMember`: the subtree's
content up to the matching end element.  Raw markup cannot be reproduced
from tokens, so the model keeps the concatenated character data (at any
depth), which is all the claims inspect. -/
def decodeInner (term : Option String) : Nat → List Token → Nat → String → Except String (String × List Token)
  | 0, _, _, _ => .error fuelErr
  | _ + 1, [], _, _ => .error (eofText term)
  | fuel + 1, Token.chardata s :: ts, depth, acc => decodeInner term fuel ts depth (acc ++ s)
  | fuel + 1, Token.start _ :: ts, depth, acc => decodeInner term fuel ts (depth + 1) (acc)
  | _ + 1, Token.endE _ _ :: ts, 0, acc => .ok (acc, ts)
  | fuel + 1, Token.endE _ _ :: ts, depth + 1, acc => decodeInner term fuel ts depth acc

/-- Models `parseMeasureElement`: decode the element text and resolve it as
a prefixed lexical name in the current namespace scope. -/
def parseMeasureElement (fuel : Nat) (term : Option String) (ts : List Token)
    (ns : namespaceStack) : Except String (QName × List Token) :=
  match decodeText term fuel ts "" with
  | .error e => .error e
  | .ok (v0, rest) =>
    let v := trimSpace v0
    .ok ({ pfx := prefixOf v, loc := localOf v, uri := ns.uriOfPfx (prefixOf v) }, rest)

/-- Models `parseExplicitMember`. -/
def parseExplicitMember (fuel : Nat) (term : Option String) (ts : List Token)
    (se : StartElement) (ns : namespaceStack) : Except String (Dimension × List Token) :=
  let dimName := trimSpace (firstAttr se.attr "dimension")
  let dimQ : QName :=
    { pfx := prefixOf dimName, loc := localOf dimName, uri := ns.uriOfPfx (prefixOf dimName) }
  match decodeText term fuel ts "" with
  | .error e => .error ("xbrl: parse explicitMember: " ++ e)
  | .ok (v0, rest) =>
    let v := trimSpace v0
    .ok ({ dimension := dimQ, explicit := true,
           member := { pfx := prefixOf v, loc := localOf v, uri := ns.uriOfPfx (prefixOf v) },
           typedValue := "" }, rest)

/-- Models `parseTypedMember`. -/
def parseTypedMember (fuel : Nat) (term : Option String) (ts : List Token)
    (se : StartElement) (ns : namespaceStack) : Except String (Dimension × List Token) :=
  let dimName := trimSpace (firstAttr se.attr "dimension")
  let dimQ : QName :=
    { pfx := prefixOf dimName, loc := localOf dimName, uri := ns.uriOfPfx (prefixOf dimName) }
  match decodeInner term fuel ts 0 "" with
  | .error e => .error ("xbrl: parse typedMember: " ++ e)
  | .ok (v, rest) =>
    .ok ({ dimension := dimQ, explicit := false, member := emptyQName,
           typedValue := trimSpace v }, rest)

/-- The attribute loop of `parseItemFact`: the named attributes are copied
by local name, and an XML-Schema-instance `nil` attribute whose value is
case-insensitively "true" sets the nil flag. -/
def applyFactAttr (f : Fact) (a : Attr) : Fact :=
  let f :=
    match a.loc with
    | "contextRef" => { f with contextRef := a.value }
    | "unitRef" => { f with unitRef := a.value }
    | "decimals" => { f with decimals := a.value }
    | "precision" => { f with precision := a.value }
    | "id" => { f with id := a.value }
    | "lang" => { f with lang := a.value }
    | _ => f
  if a.space = "http://www.w3.org/2001/XMLSchema-instance" ∧ a.loc = "nil" ∧
      eqFold a.value "true" = true then
    { f with isNil := true }
  else f

/-- Models `parseItemFact`. -/
def parseItemFact (fuel : Nat) (term : Option String) (ts : List Token)
    (se : StartElement) (ns : namespaceStack) : Except String (Fact × List Token) :=
  let f0 : Fact :=
    { kind := .item,
      name := { pfx := ns.pfxOfURI se.space, loc := se.loc, uri := se.space },
      value := "", contextRef := "", unitRef := "", decimals := "", precision := "",
      id := "", lang := "", isNil := false }
  let f1 := se.attr.foldl applyFactAttr f0
  match decodeText term fuel ts "" with
  | .error e => .error ("xbrl: parse fact " ++ se.loc ++ ": " ++ e)
  | .ok (v, rest) => .ok ({ f1 with value := trimSpace v }, rest)

/-- The token loop of `parsePeriod`, with the period under construction as
an accumulator. -/
def parsePeriodLoop (term : Option String) :
    Nat → List Token → StartElement → Period → Except String (Period × List Token)
  | 0, _, _, _ => .error fuelErr
  | fuel + 1, ts, se, p =>
    match nextTok term ts with
    | .error e => .error ("xbrl: parse period: " ++ e)
    | .ok (Token.start t, ts') =>
      match t.loc with
      | "instant" =>
        match decodeText term fuel ts' "" with
        | .error e => .error e
        | .ok (v, ts'') => parsePeriodLoop term fuel ts'' se { p with instant := some (trimSpace v) }
      | "startDate" =>
        match decodeText term fuel ts' "" with
        | .error e => .error e
        | .ok (v, ts'') => parsePeriodLoop term fuel ts'' se { p with startDate := some (trimSpace v) }
      | "endDate" =>
        match decodeText term fuel ts' "" with
        | .error e => .error e
        | .ok (v, ts'') => parsePeriodLoop term fuel ts'' se { p with endDate := some (trimSpace v) }
      | "forever" =>
        match skipToks term fuel ts' 0 with
        | .error e => .error e
        | .ok ts'' => parsePeriodLoop term fuel ts'' se { p with forever := true }
      | _ =>
        match skipToks term fuel ts' 0 with
        | .error e => .error e
        | .ok ts'' => parsePeriodLoop term fuel ts'' se p
    | .ok (Token.endE _ lc, ts') =>
      if lc = se.loc then .ok (p, ts') else parsePeriodLoop term fuel ts' se p
    | .ok (Token.chardata _, ts') => parsePeriodLoop term fuel ts' se p

/-- Models `parsePeriod`. -/
def parsePeriod (fuel : Nat) (term : Option String) (ts : List Token)
    (se : StartElement) : Except String (Period × List Token) :=
  parsePeriodLoop term fuel ts se emptyPeriod

/-- The token loop of `parseDimensionsContainer`, accumulating dimensions. -/
def parseDimensionsContainerLoop (term : Option String) :
    Nat → List Token → StartElement → namespaceStack → List Dimension →
      Except String (List Dimension × List Token)
  | 0, _, _, _, _ => .error fuelErr
  | fuel + 1, ts, se, ns, dims =>
    match nextTok term ts with
    | .error e => .error ("xbrl: parse dimensions (" ++ se.loc ++ "): " ++ e)
    | .ok (Token.start t, ts') =>
      match t.loc with
      | "explicitMember" =>
        match parseExplicitMember fuel term ts' t ns with
        | .error e => .error e
        | .ok (d, ts'') => parseDimensionsContainerLoop term fuel ts'' se ns (dims ++ [d])
      | "typedMember" =>
        match parseTypedMember fuel term ts' t ns with
        | .error e => .error e
        | .ok (d, ts'') => parseDimensionsContainerLoop term fuel ts'' se ns (dims ++ [d])
      | _ =>
        match skipToks term fuel ts' 0 with
        | .error e => .error e
        | .ok ts'' => parseDimensionsContainerLoop term fuel ts'' se ns dims
    | .ok (Token.endE _ lc, ts') =>
      if lc = se.loc then .ok (dims, ts')
      else parseDimensionsContainerLoop term fuel ts' se ns dims
    | .ok (Token.chardata _, ts') => parseDimensionsContainerLoop term fuel ts' se ns dims

/-- Models `parseDimensionsContainer` (for `segment` and `scenario`). -/
def parseDimensionsContainer (fuel : Nat) (term : Option String) (ts : List Token)
    (se : StartElement) (ns : namespaceStack) : Except String (List Dimension × List Token) :=
  parseDimensionsContainerLoop term fuel ts se ns []

/-- The token loop of `parseEntity`, accumulating the entity and the segment
dimensions. -/
def parseEntityLoop (term : Option String) :
    Nat → List Token → StartElement → namespaceStack → Entity → List Dimension →
      Except String ((Entity × List Dimension) × List Token)
  | 0, _, _, _, _, _ => .error fuelErr
  | fuel + 1, ts, se, ns, ent, dims =>
    match nextTok term ts with
    | .error e => .error ("xbrl: parse entity: " ++ e)
    | .ok (Token.start t, ts') =>
      match t.loc with
      | "identifier" =>
        match decodeText term fuel ts' "" with
        | .error e => .error ("xbrl: parse identifier: " ++ e)
        | .ok (v, ts'') =>
          parseEntityLoop term fuel ts'' se ns
            { identifier := { scheme := lastAttr t.attr "scheme", value := trimSpace v } } dims
      | "segment" =>
        match parseDimensionsContainer fuel term ts' t ns with
        | .error e => .error e
        | .ok (segDims, ts'') => parseEntityLoop term fuel ts'' se ns ent (dims ++ segDims)
      | _ =>
        match skipToks term fuel ts' 0 with
        | .error e => .error e
        | .ok ts'' => parseEntityLoop term fuel ts'' se ns ent dims
    | .ok (Token.endE _ lc, ts') =>
      if lc = se.loc then .ok ((ent, dims), ts')
      else parseEntityLoop term fuel ts' se ns ent dims
    | .ok (Token.chardata _, ts') => parseEntityLoop term fuel ts' se ns ent dims

/-- Models `parseEntity`. -/
def parseEntity (fuel : Nat) (term : Option String) (ts : List Token)
    (se : StartElement) (ns : namespaceStack) :
    Except String ((Entity × List Dimension) × List Token) :=
  parseEntityLoop term fuel ts se ns emptyEntity []

/-- The token loop of `parseContext`, accumulating the context and the
collected dimensions. -/
def parseContextLoop (term : Option String) :
    Nat → List Token → StartElement → namespaceStack → Context → List Dimension →
      Except String (Context × List Token)
  | 0, _, _, _, _, _ => .error fuelErr
  | fuel + 1, ts, se, ns, ctx, dims =>
    match nextTok term ts with
    | .error e => .error ("xbrl: parse context: " ++ e)
    | .ok (Token.start t, ts') =>
      match t.loc with
      | "entity" =>
        match parseEntity fuel term ts' t ns with
        | .error e => .error e
        | .ok ((ent, segDims), ts'') =>
          parseContextLoop term fuel ts'' se ns { ctx with entity := ent } (dims ++ segDims)
      | "period" =>
        match parsePeriod fuel term ts' t with
        | .error e => .error e
        | .ok (p, ts'') => parseContextLoop term fuel ts'' se ns { ctx with period := p } dims
      | "scenario" =>
        match parseDimensionsContainer fuel term ts' t ns with
        | .error e => .error e
        | .ok (scnDims, ts'') => parseContextLoop term fuel ts'' se ns ctx (dims ++ scnDims)
      | _ =>
        match skipToks term fuel ts' 0 with
        | .error e => .error e
        | .ok ts'' => parseContextLoop term fuel ts'' se ns ctx dims
    | .ok (Token.endE _ lc, ts') =>
      if lc = se.loc then .ok ({ ctx with dimensions := dims }, ts')
      else parseContextLoop term fuel ts' se ns ctx dims
    | .ok (Token.chardata _, ts') => parseContextLoop term fuel ts' se ns ctx dims

/-- Models `parseContext` (the `id` attribute loop has no `break`, so the
last `id` attribute wins). -/
def parseContext (fuel : Nat) (term : Option String) (ts : List Token)
    (se : StartElement) (ns : namespaceStack) : Except String (Context × List Token) :=
  parseContextLoop term fuel ts se ns
    { id := lastAttr se.attr "id", entity := emptyEntity, period := emptyPeriod,
      dimensions := [] } []

/-- The token loop of `parseUnitMeasureContainer`. -/
def parseUnitMeasureContainerLoop (term : Option String) :
    Nat → List Token → StartElement → namespaceStack → List QName →
      Except String (List QName × List Token)
  | 0, _, _, _, _ => .error fuelErr
  | fuel + 1, ts, se, ns, ms =>
    match nextTok term ts with
    | .error e => .error ("xbrl: parse unit measure container: " ++ e)
    | .ok (Token.start t, ts') =>
      if t.loc = "measure" then
        match parseMeasureElement fuel term ts' ns with
        | .error e => .error e
        | .ok (q, ts'') => parseUnitMeasureContainerLoop term fuel ts'' se ns (ms ++ [q])
      else
        match skipToks term fuel ts' 0 with
        | .error e => .error e
        | .ok ts'' => parseUnitMeasureContainerLoop term fuel ts'' se ns ms
    | .ok (Token.endE _ lc, ts') =>
      if lc = se.loc then .ok (ms, ts')
      else parseUnitMeasureContainerLoop term fuel ts' se ns ms
    | .ok (Token.chardata _, ts') => parseUnitMeasureContainerLoop term fuel ts' se ns ms

/-- Models `parseUnitMeasureContainer`. -/
def parseUnitMeasureContainer (fuel : Nat) (term : Option String) (ts : List Token)
    (se : StartElement) (ns : namespaceStack) : Except String (List QName × List Token) :=
  parseUnitMeasureContainerLoop term fuel ts se ns []

/-- The token loop of `parseDivide`. -/
def parseDivideLoop (term : Option String) :
    Nat → List Token → StartElement → namespaceStack → List QName → List QName →
      Except String ((List QName × List QName) × List Token)
  | 0, _, _, _, _, _ => .error fuelErr
  | fuel + 1, ts, se, ns, num, den =>
    match nextTok term ts with
    | .error e => .error ("xbrl: parse divide: " ++ e)
    | .ok (Token.start t, ts') =>
      match t.loc with
      | "unitNumerator" =>
        match parseUnitMeasureContainer fuel term ts' t ns with
        | .error e => .error e
        | .ok (n, ts'') => parseDivideLoop term fuel ts'' se ns n den
      | "unitDenominator" =>
        match parseUnitMeasureContainer fuel term ts' t ns with
        | .error e => .error e
        | .ok (dn, ts'') => parseDivideLoop term fuel ts'' se ns num dn
      | _ =>
        match skipToks term fuel ts' 0 with
        | .error e => .error e
        | .ok ts'' => parseDivideLoop term fuel ts'' se ns num den
    | .ok (Token.endE _ lc, ts') =>
      if lc = se.loc then .ok ((num, den), ts')
      else parseDivideLoop term fuel ts' se ns num den
    | .ok (Token.chardata _, ts') => parseDivideLoop term fuel ts' se ns num den

/-- Models `parseDivide`. -/
def parseDivide (fuel : Nat) (term : Option String) (ts : List Token)
    (se : StartElement) (ns : namespaceStack) :
    Except String ((List QName × List QName) × List Token) :=
  parseDivideLoop term fuel ts se ns [] []

/-- The token loop of `parseUnit`. -/
def parseUnitLoop (term : Option String) :
    Nat → List Token → StartElement → namespaceStack → Unit →
      Except String (Unit × List Token)
  | 0, _, _, _, _ => .error fuelErr
  | fuel + 1, ts, se, ns, u =>
    match nextTok term ts with
    | .error e => .error ("xbrl: parse unit: " ++ e)
    | .ok (Token.start t, ts') =>
      match t.loc with
      | "measure" =>
        match parseMeasureElement fuel term ts' ns with
        | .error e => .error e
        | .ok (q, ts'') =>
          parseUnitLoop term fuel ts'' se ns { u with measures := u.measures ++ [q] }
      | "divide" =>
        match parseDivide fuel term ts' t ns with
        | .error e => .error e
        | .ok ((num, den), ts'') =>
          parseUnitLoop term fuel ts'' se ns
            { u with divide := true, numerator := num, denominator := den }
      | _ =>
        match skipToks term fuel ts' 0 with
        | .error e => .error e
        | .ok ts'' => parseUnitLoop term fuel ts'' se ns u
    | .ok (Token.endE _ lc, ts') =>
      if lc = se.loc then .ok (u, ts') else parseUnitLoop term fuel ts' se ns u
    | .ok (Token.chardata _, ts') => parseUnitLoop term fuel ts' se ns u

/-- Models `parseUnit` (the `id` attribute loop has no `break`, so the last
`id` attribute wins). -/
def parseUnit (fuel : Nat) (term : Option String) (ts : List Token)
    (se : StartElement) (ns : namespaceStack) : Except String (Unit × List Token) :=
  parseUnitLoop term fuel ts se ns
    { id := lastAttr se.attr "id", measures := [], divide := false,
      numerator := [], denominator := [] }

/-- The main token loop of `Parse`.  The namespace stack is pushed for every
start element seen at this level and popped for every end element seen at
this level, exactly as in the Go loop (end elements consumed inside
sub-parsers never reach this loop). -/
def parseLoop (term : Option String) :
    Nat → List Token → Document → namespaceStack → Except String Document
  | 0, _, _, _ => .error fuelErr
  | _ + 1, [], doc, _ =>
    match term with
    | none => .ok doc
    | some m => .error ("xbrl: decode token: " ++ m)
  | fuel + 1, Token.start t :: rest, doc, ns =>
    if isXbrlRoot t then parseLoop term fuel rest doc (ns.Push t)
    else if isSchemaRef t then
      parseLoop term fuel rest
        { doc with schemaRefs := doc.schemaRefs ++ [parseSchemaRef t] } (ns.Push t)
    else if t.loc = "context" then
      match parseContext fuel term rest t (ns.Push t) with
      | .error e => .error e
      | .ok (ctx, rest') =>
        parseLoop term fuel rest'
          { doc with contexts := insertA doc.contexts ctx.id ctx } (ns.Push t)
    else if t.loc = "unit" then
      match parseUnit fuel term rest t (ns.Push t) with
      | .error e => .error e
      | .ok (u, rest') =>
        parseLoop term fuel rest' { doc with units := insertA doc.units u.id u } (ns.Push t)
    else if hasAttr t.attr "contextRef" then
      match parseItemFact fuel term rest t (ns.Push t) with
      | .error e => .error e
      | .ok (f, rest') =>
        parseLoop term fuel rest' { doc with facts := doc.facts ++ [f] } (ns.Push t)
    else parseLoop term fuel rest doc (ns.Push t)
  | fuel + 1, Token.endE _ _ :: rest, doc, ns => parseLoop term fuel rest doc ns.Pop
  | fuel + 1, Token.chardata _ :: rest, doc, ns => parseLoop term fuel rest doc ns

/-- Models `Parse`: run the main loop on the whole stream with sufficient
fuel, an empty document and a fresh namespace stack. -/
def Parse (ts : List Token) (term : Option String) : Except String Document :=
  parseLoop term (ts.length + 1) ts emptyDocument newNamespaceStack

/-! ### Concrete fixtures -/

def exRoot : StartElement := { space := "", loc := "xbrl", attr := [] }

def exQ1taxonomy : QName := { pfx := "b", loc := "Revenue", uri := "http://example.com/xbrl" }

def exQ1fact : QName := { pfx := "a", loc := "Revenue", uri := "http://example.com/xbrl" }

def exConcept1 : Concept :=
  { qname := exQ1taxonomy, id := "c1", substitutionGroup := emptyQName,
    typeName := { pfx := "xbrli", loc := "monetaryItemType", uri := nsXBRLI },
    abstract := false, nillable := false, periodType := "", balance := "" }

def exTax1 : Taxonomy := ⟨[(exQ1taxonomy, exConcept1)]⟩

def exFact1 : Fact :=
  { kind := .item, name := exQ1fact, value := "1", contextRef := "C1", unitRef := "",
    decimals := "", precision := "", id := "", lang := "", isNil := false }

def exFact1b : Fact := { exFact1 with name := exQ1taxonomy }

def exDoc1 : Document := { emptyDocument with facts := [exFact1], taxonomy := some exTax1 }

def exQ7 : QName := { pfx := "x", loc := "Amount", uri := "http://example.com" }

def exConcept7 : Concept :=
  { qname := exQ7, id := "c7", substitutionGroup := emptyQName,
    typeName := { pfx := "t", loc := "decimal", uri := nsXSD },
    abstract := false, nillable := false, periodType := "", balance := "" }

def exTax7 : Taxonomy := ⟨[(exQ7, exConcept7)]⟩

def exFact7 : Fact :=
  { kind := .item, name := exQ7, value := "123.45", contextRef := "C1", unitRef := "",
    decimals := "", precision := "", id := "", lang := "", isNil := false }

def exDoc7 : Document := { emptyDocument with facts := [exFact7], taxonomy := some exTax7 }

def exQ8 : QName := { pfx := "x", loc := "Flag", uri := "http://example.com" }

def exConcept8 : Concept :=
  { qname := exQ8, id := "c8", substitutionGroup := emptyQName,
    typeName := { pfx := "t", loc := "boolean", uri := nsXSD },
    abstract := false, nillable := false, periodType := "", balance := "" }

def exTax8 : Taxonomy := ⟨[(exQ8, exConcept8)]⟩

def exFact8yes : Fact :=
  { kind := .item, name := exQ8, value := "yes", contextRef := "C1", unitRef := "",
    decimals := "", precision := "", id := "", lang := "", isNil := false }

def exDoc8 : Document := { emptyDocument with facts := [exFact8yes], taxonomy := some exTax8 }

def exQ9a : QName := { pfx := "p", loc := "A", uri := "urn:test" }

def exQ9b : QName := { pfx := "p", loc := "B", uri := "urn:test" }

def exConcept9a : Concept :=
  { qname := exQ9a, id := "C1", substitutionGroup := emptyQName, typeName := emptyQName,
    abstract := false, nillable := false, periodType := "", balance := "" }

def exConcept9aOverride : Concept := { exConcept9a with id := "C1-override" }

def exConcept9b : Concept := { exConcept9a with qname := exQ9b, id := "C2" }

def exTax9l : Taxonomy := ⟨[(exQ9a, exConcept9a)]⟩

def exTax9r : Taxonomy := ⟨[(exQ9a, exConcept9aOverride), (exQ9b, exConcept9b)]⟩

def exQD : QName := { pfx := "p", loc := "D", uri := "urn:dim" }

def exQM1 : QName := { pfx := "p", loc := "M1", uri := "urn:mem" }

def exQM2 : QName := { pfx := "q", loc := "M2", uri := "urn:mem" }

def dimExp (d m : QName) : Dimension :=
  { dimension := d, explicit := true, member := m, typedValue := "" }

def exCtx1 : Context :=
  { id := "C1", entity := emptyEntity, period := emptyPeriod, dimensions := [dimExp exQD exQM1] }

def exCtx2 : Context := { exCtx1 with id := "C2", dimensions := [dimExp exQD exQM2] }

def exCtx3 : Context :=
  { exCtx1 with id := "C3", dimensions := [dimExp exQD exQM1, dimExp exQD exQM2] }

def exCtxT : Context :=
  { exCtx1 with
    id := "CT",
    dimensions := [{ dimension := exQD, explicit := false, member := emptyQName, typedValue := "v" }] }

def mkFact5 (idv ref : String) : Fact :=
  { kind := .item, name := { pfx := "", loc := "F", uri := "urn:f" }, value := "1",
    contextRef := ref, unitRef := "", decimals := "", precision := "", id := idv,
    lang := "", isNil := false }

def exF1 : Fact := mkFact5 "f1" "C1"

def exF2 : Fact := mkFact5 "f2" "C2"

def exF3 : Fact := mkFact5 "f3" "C3"

def exFT : Fact := mkFact5 "fT" "CT"

def exDoc5 : Document :=
  { schemaRefs := [],
    contexts := [("C1", exCtx1), ("C2", exCtx2), ("C3", exCtx3), ("CT", exCtxT)],
    units := [], facts := [exF1, exF2, exF3, exFT], taxonomy := none }

def exFltM1 : FactFilter :=
  { NewFactFilter with
    dims := [{ dimURI := "urn:dim", dimLocal := "D", memURI := "urn:mem", memLocal := "M1" }] }

def exFltBoth : FactFilter :=
  { NewFactFilter with
    dims := [{ dimURI := "urn:dim", dimLocal := "D", memURI := "urn:mem", memLocal := "M1" },
             { dimURI := "urn:dim", dimLocal := "D", memURI := "urn:mem", memLocal := "M2" }] }

def exC4sib : StartElement := { space := "http://example.com/xbrl", loc := "Something", attr := [] }

def exC4fa : StartElement :=
  { space := "http://example.com/xbrl", loc := "Revenue",
    attr := [{ space := "", loc := "contextRef", value := "C1" }] }

def exC4toks : List Token :=
  [Token.start exRoot,
   Token.start exC4sib, Token.chardata "no contextRef",
   Token.endE "http://example.com/xbrl" "Something",
   Token.start exC4fa, Token.chardata "12345",
   Token.endE "http://example.com/xbrl" "Revenue",
   Token.endE "" "xbrl"]

def exC4fact : Fact :=
  { kind := .item, name := { pfx := "", loc := "Revenue", uri := "http://example.com/xbrl" },
    value := "12345", contextRef := "C1", unitRef := "", decimals := "", precision := "",
    id := "", lang := "", isNil := false }

def exC6ctx : StartElement :=
  { space := "", loc := "context", attr := [{ space := "", loc := "id", value := "C1" }] }

def exC6foo : StartElement := { space := "", loc := "foo", attr := [] }

def exC6toks : List Token := [Token.start exRoot, Token.start exC6ctx, Token.start exC6foo]

def ex3s : namespaceStack := ⟨[[("a", "u1")]]⟩

def ex3e : StartElement :=
  { space := "", loc := "child", attr := [{ space := "xmlns", loc := "a", value := "u2" }] }

def exC10ent : StartElement := { space := "", loc := "entity", attr := [] }

def exC10ident : StartElement :=
  { space := "", loc := "identifier", attr := [{ space := "", loc := "scheme", value := "s" }] }

def exC10unit : StartElement :=
  { space := "", loc := "unit", attr := [{ space := "", loc := "id", value := "U1" }] }

def exC10measure : StartElement := { space := "", loc := "measure", attr := [] }

def exC10toks : List Token :=
  [Token.start exRoot,
   Token.start exC6ctx, Token.start exC10ent, Token.start exC10ident, Token.chardata "A",
   Token.endE "" "identifier", Token.endE "" "entity", Token.endE "" "context",
   Token.start exC6ctx, Token.start exC10ent, Token.start exC10ident, Token.chardata "B",
   Token.endE "" "identifier", Token.endE "" "entity", Token.endE "" "context",
   Token.start exC10unit, Token.start exC10measure, Token.chardata "JPY",
   Token.endE "" "measure", Token.endE "" "unit",
   Token.start exC10unit, Token.start exC10measure, Token.chardata "USD",
   Token.endE "" "measure", Token.endE "" "unit",
   Token.endE "" "xbrl"]

def exCtx10B : Context :=
  { id := "C1", entity := { identifier := { scheme := "s", value := "B" } },
    period := emptyPeriod, dimensions := [] }

def exUnit10B : Unit :=
  { id := "U1", measures := [{ pfx := "", loc := "USD", uri := "" }], divide := false,
    numerator := [], denominator := [] }

def exC10doc : Document :=
  { schemaRefs := [], contexts := [("C1", exCtx10B)], units := [("U1", exUnit10B)],
    facts := [], taxonomy := none }

/-! ### Helper lemmas about lookup after merge -/

theorem mem_keys_of_lookupA {κ α : Type} [DecidableEq κ]
    (m : List (κ × α)) (k : κ) (v : α) (h : lookupA m k = some v) :
    k ∈ m.map Prod.fst := by
  induction m with
  | nil => simp [lookupA] at h
  | cons b rest ih =>
    by_cases hb : b.1 = k
    · simp [hb]
    · simp only [lookupA, if_neg hb] at h
      simp [ih h]

theorem lookupA_foldl_insert {κ α : Type} [DecidableEq κ]
    (entries : List (κ × α)) (base : List (κ × α)) (k : κ)
    (h : (entries.map Prod.fst).Nodup) :
    lookupA (entries.foldl (fun m qc => insertA m qc.1 qc.2) base) k =
      match lookupA entries k with
      | some v => some v
      | none => lookupA base k := by
  induction entries generalizing base with
  | nil => simp [lookupA]
  | cons b rest ih =>
    cases b with
    | mk k0 v0 =>
      simp only [List.map_cons, List.nodup_cons] at h
      obtain ⟨hk0, hrest⟩ := h
      show lookupA (rest.foldl _ (insertA base k0 v0)) k = _
      rw [ih (insertA base k0 v0) hrest]
      by_cases hk : k0 = k
      · subst hk
        have hnone : lookupA rest k0 = none := by
          cases hl : lookupA rest k0 with
          | none => rfl
          | some v => exact absurd (mem_keys_of_lookupA rest k0 v hl) hk0
        rw [hnone]
        simp [lookupA, lookupA_insertA_self]
      · rw [lookupA_insertA_ne base k0 k v0 (Ne.symm hk)]
        simp [lookupA, hk]

/-! ### The claims -/

/-- Claim C1 counterexample: the taxonomy declares a Concept whose QName has
the same namespace URI and local name as the fact's name, differing only in
the recorded prefix ("b" in the schema scope versus "a" in the instance
scope), yet `ConceptOf` fails to find it — the registry lookup compares the
full QName, prefix included. -/
theorem c1_counterexample :
    exFact1.name.uri = exConcept1.qname.uri ∧
    exFact1.name.loc = exConcept1.qname.loc ∧
    (exConcept1.qname, exConcept1) ∈ exTax1.concepts ∧
    exDoc1.taxonomy = some exTax1 ∧
    Document.ConceptOf (some exDoc1) (some exFact1) = none :=
  ⟨rfl, rfl, by decide, rfl, rfl⟩

/-- Claim C1 (amended): concept resolution through `ConceptOf` succeeds
exactly when the attached taxonomy's registry holds an entry whose key is
the fact's entire QName — namespace URI, local name AND prefix — because the
registry is a map keyed by the full QName value. -/
theorem c1_amended (d : Document) (t : Taxonomy) (f : Fact)
    (h : d.taxonomy = some t) :
    (Document.ConceptOf (some d) (some f)).isSome = true ↔
      ∃ c, (f.name, c) ∈ t.concepts := by
  simp only [Document.ConceptOf, h, Taxonomy.Concept]
  exact lookupA_isSome_iff t.concepts f.name

/-- Witness for C1's amended theorem at a concrete document whose fact name
matches the registry key exactly. -/
theorem c1_amended_witness :
    exDoc1.taxonomy = some exTax1 ∧
    ((Document.ConceptOf (some exDoc1) (some exFact1b)).isSome = true ↔
      ∃ c, (exFact1b.name, c) ∈ exTax1.concepts) :=
  ⟨rfl, c1_amended exDoc1 exTax1 exFact1b rfl⟩

/-- Claim C2 counterexample: calling a typed accessor on an absent document
fails with a freshly formatted error, not with any of the exported sentinel
errors, so this failure cannot be branched on with errors.Is. -/
theorem c2_counterexample :
    Document.AsInt64 none none = .error (.adhoc "xbrl: document is nil") ∧
    errSentinelMatchable (.adhoc "xbrl: document is nil") = false :=
  ⟨rfl, rfl⟩

theorem asInt64_error_recognizable (d : Option Document) (f : Option Fact)
    (e : AccessorErr) (h : Document.AsInt64 d f = .error e) :
    errRecognizable e = true := by
  unfold Document.AsInt64 at h
  repeat' split at h
  all_goals first
    | (injection h with h2; subst h2; rfl)
    | (injection h)

theorem asFloat64_error_recognizable (d : Option Document) (f : Option Fact)
    (e : AccessorErr) (h : Document.AsFloat64 d f = .error e) :
    errRecognizable e = true := by
  unfold Document.AsFloat64 at h
  repeat' split at h
  all_goals first
    | (injection h with h2; subst h2; rfl)
    | (injection h)

theorem asBool_error_recognizable (d : Option Document) (f : Option Fact)
    (e : AccessorErr) (h : Document.AsBool d f = .error e) :
    errRecognizable e = true := by
  unfold Document.AsBool at h
  repeat' split at h
  all_goals first
    | (injection h with h2; subst h2; rfl)
    | (injection h)

theorem asTime_error_recognizable (d : Option Document) (f : Option Fact)
    (loc : Option String) (e : AccessorErr) (h : Document.AsTime d f loc = .error e) :
    errRecognizable e = true := by
  unfold Document.AsTime at h
  repeat' split at h
  all_goals first
    | (injection h with h2; subst h2; rfl)
    | (injection h)

/-- Claim C2 (amended): every failure of the four typed accessors is one of
six fixed conditions — the four exported sentinels (taxonomy-absent,
concept-not-found, unsupported-type, invalid-lexical-form, the last also
covering nil-flagged facts and wrapped parse failures) plus the two fixed
ad-hoc messages for an absent document and an absent fact.  Only the four
sentinel conditions can be branched on with errors.Is; the two ad-hoc
failures are recognizable by their message text alone. -/
theorem c2_amended :
    (∀ d f e, Document.AsInt64 d f = .error e → errRecognizable e = true) ∧
    (∀ d f e, Document.AsFloat64 d f = .error e → errRecognizable e = true) ∧
    (∀ d f e, Document.AsBool d f = .error e → errRecognizable e = true) ∧
    (∀ d f loc e, Document.AsTime d f loc = .error e → errRecognizable e = true) ∧
    errSentinelMatchable (.adhoc "xbrl: document is nil") = false ∧
    errSentinelMatchable (.adhoc "xbrl: fact is nil") = false ∧
    errSentinelMatchable (.sentinel .noTaxonomy) = true ∧
    errSentinelMatchable (.sentinel .noConcept) = true ∧
    errSentinelMatchable (.sentinel .unsupportedType) = true ∧
    errSentinelMatchable (.sentinel .invalidValue) = true ∧
    (∀ m, errSentinelMatchable (.wrapped .invalidValue m) = true) :=
  ⟨asInt64_error_recognizable, asFloat64_error_recognizable,
   asBool_error_recognizable, asTime_error_recognizable,
   rfl, rfl, rfl, rfl, rfl, rfl, fun _ => rfl⟩

/-- Witness for C2's amended theorem at the concrete document-absent
failure. -/
theorem c2_amended_witness :
    Document.AsInt64 none none = .error (.adhoc "xbrl: document is nil") ∧
    errRecognizable (.adhoc "xbrl: document is nil") = true :=
  ⟨rfl, c2_amended.1 none none (.adhoc "xbrl: document is nil") rfl⟩

/-- Claim C9: merging copies every source entry into the destination,
overwriting on QName collision (source wins) and keeping non-colliding
destination entries; a nil source or a nil destination is a no-op and merge
never fails.  Key uniqueness of the source registry (a Go map invariant) is
the `Nodup` hypothesis. -/
theorem c9_merge_semantics (t o : Taxonomy) (x : Option Taxonomy) (q : QName)
    (h : (o.concepts.map Prod.fst).Nodup) :
    Taxonomy.Merge (some t) (some o) = some ⟨mergeConcepts t.concepts o.concepts⟩ ∧
    (∀ c, lookupA o.concepts q = some c →
      lookupA (mergeConcepts t.concepts o.concepts) q = some c) ∧
    (lookupA o.concepts q = none →
      lookupA (mergeConcepts t.concepts o.concepts) q = lookupA t.concepts q) ∧
    Taxonomy.Merge none x = none ∧
    Taxonomy.Merge (some t) none = some t := by
  have hm := lookupA_foldl_insert o.concepts t.concepts q h
  refine ⟨rfl, ?_, ?_, rfl, rfl⟩
  · intro c hc
    simp only [mergeConcepts]
    rw [hm, hc]
  · intro hc
    simp only [mergeConcepts]
    rw [hm, hc]

/-- Witness for C9: merging a two-entry registry into a one-entry registry,
the colliding QName ends up with the source's Concept. -/
theorem c9_merge_semantics_witness :
    (exTax9r.concepts.map Prod.fst).Nodup ∧
    lookupA (mergeConcepts exTax9l.concepts exTax9r.concepts) exQ9a =
      some exConcept9aOverride ∧
    lookupA (mergeConcepts exTax9l.concepts exTax9r.concepts) exQ9b = some exConcept9b :=
  ⟨by decide,
   (c9_merge_semantics exTax9l exTax9r none exQ9a (by decide)).2.1
     exConcept9aOverride (by decide),
   (c9_merge_semantics exTax9l exTax9r none exQ9b (by decide)).2.1
     exConcept9b (by decide)⟩

/-- Claim C3: pushing a frame for an element and popping it restores the
binding environment exactly (for every prefix the resolved URI is the one
from before the push); while the frame is live, a prefix declared on the
pushed element resolves from that element's declarations alone, shadowing
any outer binding (the default namespace being the empty-string prefix);
and a sibling pushed after the pop sees exactly the environment the first
sibling saw, so declarations never leak between sibling subtrees. -/
theorem c3_namespace_scoping (s : namespaceStack) (e e2 : StartElement)
    (h : s.stack ≠ []) :
    (∀ p, ((s.Push e).Pop).uriOfPfx p = s.uriOfPfx p) ∧
    (∀ p, p ∈ (xmlnsDecls e.attr).map Prod.fst →
      (s.Push e).uriOfPfx p = (lookupA (pushFrame [] (xmlnsDecls e.attr)) p).getD "") ∧
    ((s.Push e).Pop.Push e2 = s.Push e2) := by
  have hlen : 0 < s.stack.length := List.length_pos.mpr h
  have hpop : (s.Push e).Pop = s := by
    cases s with
    | mk st =>
      show namespaceStack.Pop ⟨_ :: st⟩ = _
      unfold namespaceStack.Pop
      rw [if_pos (by exact Nat.succ_lt_succ hlen)]
      rfl
  refine ⟨fun p => by rw [hpop], ?_, by rw [hpop]⟩
  intro p hp
  show (lookupA (pushFrame s.headFrame (xmlnsDecls e.attr)) p).getD "" = _
  rw [pushFrame_eq, pushFrame_eq, List.append_nil]
  have hmem : p ∈ ((xmlnsDecls e.attr).reverse).map Prod.fst := by
    rw [List.map_reverse, List.mem_reverse]
    exact hp
  rw [lookupA_append_left _ s.headFrame p hmem]

/-- Witness for C3 at a concrete one-frame stack and an element that
redeclares the prefix "a". -/
theorem c3_namespace_scoping_witness :
    ex3s.stack ≠ [] ∧
    ((ex3s.Push ex3e).Pop).uriOfPfx "a" = ex3s.uriOfPfx "a" ∧
    (ex3s.Push ex3e).uriOfPfx "a" =
      (lookupA (pushFrame [] (xmlnsDecls ex3e.attr)) "a").getD "" ∧
    (ex3s.Push ex3e).Pop.Push ex3e = ex3s.Push ex3e := by
  have h := c3_namespace_scoping ex3s ex3e ex3e (by decide)
  exact ⟨by decide, h.1 "a", h.2.1 "a" (by decide), h.2.2⟩

/-- Claim C4: at the scan level, for an element that is not the xbrl root
and whose local name is not schemaRef, context or unit, the main parse loop
appends an item fact exactly when the element carries a contextRef
attribute (matched by attribute local name): without contextRef the loop
continues with the document unchanged; with contextRef the successfully
parsed fact is appended (and a parse failure aborts).  On the concrete
stream with a contextRef-less sibling next to a genuine fact, only the fact
is collected. -/
theorem c4_fact_detection (fuel : Nat) (term : Option String) (t : StartElement)
    (rest : List Token) (doc : Document) (ns : namespaceStack)
    (h1 : isXbrlRoot t = false) (h2 : isSchemaRef t = false)
    (h3 : t.loc ≠ "context") (h4 : t.loc ≠ "unit") :
    (hasAttr t.attr "contextRef" = false →
      parseLoop term (fuel + 1) (Token.start t :: rest) doc ns =
        parseLoop term fuel rest doc (ns.Push t)) ∧
    (∀ f rest', hasAttr t.attr "contextRef" = true →
      parseItemFact fuel term rest t (ns.Push t) = .ok (f, rest') →
      parseLoop term (fuel + 1) (Token.start t :: rest) doc ns =
        parseLoop term fuel rest' { doc with facts := doc.facts ++ [f] } (ns.Push t)) ∧
    (∀ e, hasAttr t.attr "contextRef" = true →
      parseItemFact fuel term rest t (ns.Push t) = .error e →
      parseLoop term (fuel + 1) (Token.start t :: rest) doc ns = .error e) ∧
    (Parse exC4toks none).toOption.map Document.facts = some [exC4fact] := by
  refine ⟨?_, ?_, ?_, by decide⟩
  · intro hca
    simp [parseLoop, h1, h2, h3, h4, hca]
  · intro f rest' hca hok
    simp [parseLoop, h1, h2, h3, h4, hca, hok]
  · intro e hca herr
    simp [parseLoop, h1, h2, h3, h4, hca, herr]

/-- Witness for C4 at a concrete contextRef-less element. -/
theorem c4_fact_detection_witness :
    isXbrlRoot exC4sib = false ∧ isSchemaRef exC4sib = false ∧
    exC4sib.loc ≠ "context" ∧ exC4sib.loc ≠ "unit" ∧
    hasAttr exC4sib.attr "contextRef" = false ∧
    parseLoop none 1 [Token.start exC4sib] emptyDocument newNamespaceStack =
      parseLoop none 0 [] emptyDocument (newNamespaceStack.Push exC4sib) :=
  ⟨rfl, rfl, by decide, by decide, rfl,
    (c4_fact_detection 0 none exC4sib [] emptyDocument newNamespaceStack rfl rfl
      (by decide) (by decide)).1 rfl⟩

theorem parseLoop_some_errors (m : String) :
    ∀ fuel ts doc ns, ∃ e, parseLoop (some m) fuel ts doc ns = .error e := by
  intro fuel
  induction fuel with
  | zero => intro ts doc ns; exact ⟨fuelErr, rfl⟩
  | succ fuel ih =>
    intro ts doc ns
    match ts with
    | [] => exact ⟨"xbrl: decode token: " ++ m, rfl⟩
    | Token.start t :: rest =>
      simp only [parseLoop]
      repeat' split
      all_goals first
        | exact ih _ _ _
        | exact ⟨_, rfl⟩
    | Token.endE sp lc :: rest => exact ih rest doc _
    | Token.chardata s :: rest => exact ih rest doc ns

/-- Claim C6 (amended): a tokenizer error anywhere in the stream makes
`Parse` return an error and never a Document; when input is exhausted at a
structural sub-parser's own token read, the error is tagged with that
element's name (context, entity, period, unit, divide, or the
segment/scenario dimensions container).  However — the amendment — input
exhausted while skipping an unrecognized child, or while decoding a leaf
element's text, propagates untagged (see the counterexample). -/
theorem c6_error_abort :
    (∀ ts m, ∃ e, Parse ts (some m) = .error e) ∧
    (∀ fuel term se ns, parseContext (fuel + 1) term [] se ns =
      .error ("xbrl: parse context: " ++ eofText term)) ∧
    (∀ fuel term se ns, parseEntity (fuel + 1) term [] se ns =
      .error ("xbrl: parse entity: " ++ eofText term)) ∧
    (∀ fuel term se, parsePeriod (fuel + 1) term [] se =
      .error ("xbrl: parse period: " ++ eofText term)) ∧
    (∀ fuel term se ns, parseUnit (fuel + 1) term [] se ns =
      .error ("xbrl: parse unit: " ++ eofText term)) ∧
    (∀ fuel term se ns, parseDivide (fuel + 1) term [] se ns =
      .error ("xbrl: parse divide: " ++ eofText term)) ∧
    (∀ fuel term se ns, parseDimensionsContainer (fuel + 1) term [] se ns =
      .error ("xbrl: parse dimensions (" ++ se.loc ++ "): " ++ eofText term)) := by
  refine ⟨fun ts m =>
    parseLoop_some_errors m (ts.length + 1) ts emptyDocument newNamespaceStack,
    fun fuel term se ns => rfl, fun fuel term se ns => rfl, fun fuel term se => rfl,
    fun fuel term se ns => rfl, fun fuel term se ns => rfl, fun fuel term se ns => rfl⟩

/-- Claim C6 counterexample: the stream ends (with the tokenizer's
"unexpected EOF") while a context element is still open, but the EOF
surfaces inside `dec.Skip()` on the unrecognized child `<foo>`, whose error
parseContext returns untouched — so Parse's error text carries no
structural-element tag at all, not even the library prefix. -/
theorem c6_counterexample :
    Parse exC6toks (some "unexpected EOF") = .error "unexpected EOF" ∧
    "unexpected EOF" ≠ "xbrl: parse context: unexpected EOF" :=
  ⟨rfl, by decide⟩

/-- Claim C5: for a filter whose only predicates are required
(dimension, member) pairs, FilterFacts keeps a fact exactly when the fact's
context resolves by its contextRef id and every required pair is matched by
some Explicit dimension entry of that context on URI and local name of both
dimension and member (so a Typed entry never satisfies a pair, and an
unresolvable context excludes the fact).  On the concrete contexts
C1=(D,M1), C2=(D,M2), C3=(D,M1)+(D,M2) and CT=Typed(D), requiring (D,M1)
keeps exactly the facts on C1 and C3, and requiring both pairs keeps only
the fact on C3. -/
theorem c5_dimension_filtering (d : Document) (flt : FactFilter) (fact : Fact)
    (hL : flt.conceptLocal = "") (hU : flt.conceptURI = "") (hC : flt.contextID = "")
    (hUn : flt.unitID = "") (hN : flt.nilFilter = none) (hD : flt.dims ≠ []) :
    (fact ∈ Document.FilterFacts (some d) (some flt) ↔
      fact ∈ d.facts ∧ ∃ ctx, lookupA d.contexts fact.contextRef = some ctx ∧
        ∀ df ∈ flt.dims, ∃ cd ∈ ctx.dimensions, cd.explicit = true ∧
          cd.dimension.uri = df.dimURI ∧ cd.dimension.loc = df.dimLocal ∧
          cd.member.uri = df.memURI ∧ cd.member.loc = df.memLocal) ∧
    Document.FilterFacts (some exDoc5) (some exFltM1) = [exF1, exF3] ∧
    Document.FilterFacts (some exDoc5) (some exFltBoth) = [exF3] := by
  have hne : flt.dims.isEmpty = false := by
    cases hdims : flt.dims with
    | nil => exact absurd hdims hD
    | cons a l => rfl
  refine ⟨?_, by decide, by decide⟩
  simp only [Document.FilterFacts, List.mem_filter, factPasses, hL, hU, hC, hUn, hN, hne,
    beq_self_eq_true, Bool.true_or, Bool.true_and, Bool.if_false_left, Bool.false_eq_true,
    if_false]
  cases hctx : lookupA d.contexts fact.contextRef with
  | none => simp [hctx]
  | some ctx =>
    simp only [hctx, Option.some.injEq]
    constructor
    · rintro ⟨hmem, hall⟩
      refine ⟨hmem, ctx, rfl, ?_⟩
      intro df hdf
      have := (List.all_eq_true.mp hall) df hdf
      rcases List.any_eq_true.mp this with ⟨cd, hcd, hsat⟩
      simp only [Bool.and_eq_true, beq_iff_eq] at hsat
      exact ⟨cd, hcd, hsat.1.1.1.1, hsat.1.1.1.2, hsat.1.1.2, hsat.1.2, hsat.2⟩
    · rintro ⟨hmem, ctx', hctx', hall⟩
      cases hctx'
      refine ⟨hmem, ?_⟩
      apply List.all_eq_true.mpr
      intro df hdf
      rcases hall df hdf with ⟨cd, hcd, he, h1, h2, h3, h4⟩
      apply List.any_eq_true.mpr
      exact ⟨cd, hcd, by simp [he, h1, h2, h3, h4]⟩

/-- Witness for C5: on the concrete document, requiring (D,M1) keeps
exactly the facts on contexts C1 and C3. -/
theorem c5_dimension_filtering_witness :
    exFltM1.dims ≠ [] ∧
    Document.FilterFacts (some exDoc5) (some exFltM1) = [exF1, exF3] :=
  ⟨by decide,
    (c5_dimension_filtering exDoc5 exFltM1 exF1 rfl rfl rfl rfl rfl (by decide)).2.1⟩

/-- Claim C7: for a fact whose concept classifies as numeric or monetary,
AsInt64 trims surrounding whitespace, fails with the invalid-lexical-form
sentinel whenever the trimmed value contains '.', 'e' or 'E', and otherwise
parses it as a base-10 64-bit integer; AsFloat64 trims and parses the
decimal/exponential form.  In particular the value "123.45" fails AsInt64
with the invalid-value sentinel while AsFloat64 yields exactly 123.45. -/
theorem c7_numeric_conversion (d : Document) (t : Taxonomy) (f : Fact) (c : Concept)
    (hd : d.taxonomy = some t) (hf : f.isNil = false)
    (hc : Document.ConceptOf (some d) (some f) = some c)
    (hk : Concept.ValueKind (some c) = .numeric ∨ Concept.ValueKind (some c) = .monetary) :
    (containsAnyDotEE (trimSpace f.value) = true →
      Document.AsInt64 (some d) (some f) = .error (.sentinel .invalidValue)) ∧
    (∀ n, containsAnyDotEE (trimSpace f.value) = false →
      parseInt10 (trimSpace f.value) = some n →
      Document.AsInt64 (some d) (some f) = .ok n) ∧
    (∀ q, parseFloatQ (trimSpace f.value) = some q →
      Document.AsFloat64 (some d) (some f) = .ok q) ∧
    Document.AsInt64 (some exDoc7) (some exFact7) = .error (.sentinel .invalidValue) ∧
    Document.AsFloat64 (some exDoc7) (some exFact7) = .ok ((2469 : ℚ) / 20) := by
  refine ⟨?_, ?_, ?_, by rfl, ?_⟩
  · intro hdot
    rcases hk with hk | hk <;> simp [Document.AsInt64, hd, hf, hc, hk, hdot]
  · intro n hdot hint
    rcases hk with hk | hk <;> simp [Document.AsInt64, hd, hf, hc, hk, hdot, hint]
  · intro q hq
    rcases hk with hk | hk <;> simp [Document.AsFloat64, hd, hf, hc, hk, hq]
  · have h0 : Document.AsFloat64 (some exDoc7) (some exFact7) =
        .ok ((digitsToNat ['1', '2', '3'] : ℚ) +
          (digitsToNat ['4', '5'] : ℚ) / ((10 : ℚ) ^ (2 : ℕ))) := rfl
    have h123 : digitsToNat ['1', '2', '3'] = 123 := by decide
    have h45 : digitsToNat ['4', '5'] = 45 := by decide
    rw [h0, h123, h45]
    norm_num

/-- Witness for C7 at the concrete "123.45" fact. -/
theorem c7_numeric_conversion_witness :
    containsAnyDotEE (trimSpace exFact7.value) = true ∧
    Document.AsInt64 (some exDoc7) (some exFact7) = .error (.sentinel .invalidValue) :=
  ⟨by decide,
    (c7_numeric_conversion exDoc7 exTax7 exFact7 exConcept7 rfl rfl (by decide)
      (Or.inl (by decide))).1 (by decide)⟩

/-- Claim C8 counterexample: the typed boolean accessor does not behave
identically to the taxonomy attribute lexer on "yes": parseBool maps "yes"
to false, but AsBool on a boolean-typed fact valued "yes" returns the
invalid-value sentinel failure instead of a successful false. -/
theorem c8_counterexample :
    parseBool "yes" = false ∧
    Document.AsBool (some exDoc8) (some exFact8yes) = .error (.sentinel .invalidValue) ∧
    Document.AsBool (some exDoc8) (some exFact8yes) ≠ .ok false :=
  ⟨rfl, rfl, fun hcontra => Except.noConfusion hcontra⟩

/-- Claim C8 (amended): both lexers recognize exactly case-insensitive
"true" and literal "1" as true — so "yes" is never true in either — but
they are not identical on the rest: parseBool maps every other lexical
form (including "false", "0", "yes", "no" and the empty string) to false,
while AsBool maps only case-insensitive "false"/"0" to a successful false
and every other form (including "yes", "no" and the empty string) to the
invalid-lexical-form sentinel failure. -/
theorem c8_boolean_lexers (s : String) (d : Document) (t : Taxonomy) (f : Fact)
    (c : Concept) (hd : d.taxonomy = some t) (hf : f.isNil = false)
    (hc : Document.ConceptOf (some d) (some f) = some c)
    (hb : Concept.ValueKind (some c) = .boolean) :
    (parseBool s = true ↔ toLowerAscii s = "true" ∨ toLowerAscii s = "1") ∧
    (toLowerAscii (trimSpace f.value) = "true" ∨ toLowerAscii (trimSpace f.value) = "1" →
      Document.AsBool (some d) (some f) = .ok true) ∧
    (toLowerAscii (trimSpace f.value) = "false" ∨ toLowerAscii (trimSpace f.value) = "0" →
      Document.AsBool (some d) (some f) = .ok false) ∧
    (toLowerAscii (trimSpace f.value) ≠ "true" → toLowerAscii (trimSpace f.value) ≠ "1" →
      toLowerAscii (trimSpace f.value) ≠ "false" → toLowerAscii (trimSpace f.value) ≠ "0" →
      Document.AsBool (some d) (some f) = .error (.sentinel .invalidValue)) ∧
    parseBool "yes" = false ∧ parseBool "no" = false ∧ parseBool "" = false ∧
    Document.AsBool (some exDoc8) (some exFact8yes) = .error (.sentinel .invalidValue) := by
  have hb' : ¬ (Concept.ValueKind (some c) ≠ ConceptValueKind.boolean) := by simp [hb]
  refine ⟨⟨?_, ?_⟩, ?_, ?_, ?_, rfl, rfl, rfl, rfl⟩
  · intro hp
    by_cases h0 : s = ""
    · simp [parseBool, h0] at hp
    · by_cases h1 : toLowerAscii s = "true" ∨ toLowerAscii s = "1"
      · exact h1
      · simp [parseBool, h0, h1] at hp
  · intro h1
    have h0 : s ≠ "" := by
      rintro rfl
      rcases h1 with h | h <;> exact absurd h (by decide)
    simp [parseBool, h0, h1]
  · rintro (h | h) <;>
      · simp only [Document.AsBool, hd, hf, hc]
        rw [if_neg hb', h]
        rfl
  · rintro (h | h) <;>
      · simp only [Document.AsBool, hd, hf, hc]
        rw [if_neg hb', h]
        rfl
  · intro h1 h2 h3 h4
    simp only [Document.AsBool, hd, hf, hc]
    rw [if_neg hb']
    split
    all_goals first
      | rfl
      | (exfalso; first
          | exact h1 (by assumption)
          | exact h2 (by assumption)
          | exact h3 (by assumption)
          | exact h4 (by assumption))

/-- Witness for C8's amended theorem: "TRUE" lexes to true through
parseBool via the iff, on the concrete boolean-typed document. -/
theorem c8_boolean_lexers_witness :
    Concept.ValueKind (some exConcept8) = ConceptValueKind.boolean ∧
    parseBool "TRUE" = true :=
  ⟨by decide,
    ((c8_boolean_lexers "TRUE" exDoc8 exTax8 exFact8yes exConcept8 rfl rfl (by decide)
      (by decide)).1).mpr (Or.inl (by decide))⟩

/-- Claim C10: a repeated context (or unit) id does not fail the parse; the
registry insertion used by `Parse` overwrites, so the id maps to the entity
built from the last same-id element, and the concrete two-context /
two-unit instance parses successfully with exactly the second context and
second unit registered. -/
theorem c10_duplicate_ids :
    (∀ (m : List (String × Context)) (id : String) (c : Context),
      lookupA (insertA m id c) id = some c) ∧
    Parse exC10toks none = .ok exC10doc ∧
    lookupA exC10doc.contexts "C1" = some exCtx10B ∧
    lookupA exC10doc.units "U1" = some exUnit10B ∧
    exC10doc.contexts.length = 1 ∧
    exC10doc.units.length = 1 :=
  ⟨fun m id c => lookupA_insertA_self m id c, rfl, by decide, by decide, rfl, rfl⟩

end Xbrl
